import Mathlib

/-!
Shallow embedding of the CRUD routers of the fullstack monorepo starter
(packages/api/src/routers: todo, post, comment, category, profile) over the
Drizzle schema (packages/database/src/schema.ts), together with theorems
settling the frozen claims about the natural-language specification.

Modelling conventions:
* timestamps are milliseconds since epoch, as `Int` (JS `Date.now()`); the
  current time and freshly generated row ids are passed as explicit
  parameters where the source calls `new Date()` / relies on column
  defaults (`defaultNow`, `defaultRandom`);
* the database is a record of row lists; `select ... where ... limit 1`
  becomes `List.find?`, `update ... where` becomes `List.map` guarded by
  the where-predicate, `delete ... where` becomes `List.filter` with the
  negated predicate, exactly mirroring each where-clause of the source;
* each procedure returns `Except TrpcErr out × DB` (result and the
  post-state of the storage); numbers that the source keeps as JS numbers
  are modelled as `Int` (counts) and `Rat` (the completion rate, which is
  the one fractional value the routers compute).
-/

namespace Starter

/-- Error codes of the TRPCError values thrown by the routers. -/
inductive ErrCode where
  | NOT_FOUND
  | FORBIDDEN
  | BAD_REQUEST
  | UNAUTHORIZED
  | INTERNAL_SERVER_ERROR
  deriving DecidableEq, Repr

/-- Model of TRPCError: a code plus the message string of the source. -/
structure TrpcErr where
  code : ErrCode
  message : String
  deriving DecidableEq, Repr

/-- Caller identity handed to the RPC layer by createContext (context.ts):
an opaque id plus optional email, or null when no session resolved. -/
structure AuthUser where
  id : String
  email : Option String
  deriving DecidableEq, Repr

/-- Row of the todos table (schema.ts). -/
structure Todo where
  id : String
  title : String
  description : Option String
  completed : Bool
  userId : String
  createdAt : Int
  updatedAt : Int
  deriving DecidableEq, Repr

/-- Post status enum (post_status in schema.ts). -/
inductive PostStatus where
  | draft
  | published
  | archived
  deriving DecidableEq, Repr

/-- Row of the posts table (schema.ts). -/
structure Post where
  id : String
  title : String
  slug : String
  content : String
  excerpt : Option String
  coverImage : Option String
  status : PostStatus
  viewCount : Int
  authorId : String
  publishedAt : Option Int
  createdAt : Int
  updatedAt : Int
  deriving DecidableEq, Repr

/-- Row of the comments table (schema.ts). -/
structure Comment where
  id : String
  content : String
  postId : String
  authorId : String
  parentId : Option String
  createdAt : Int
  updatedAt : Int
  deriving DecidableEq, Repr

/-- Row of the categories table (schema.ts). -/
structure Category where
  id : String
  name : String
  slug : String
  description : Option String
  createdAt : Int
  updatedAt : Int
  deriving DecidableEq, Repr

/-- Row of the post_categories join table (schema.ts, composite key). -/
structure PostCategory where
  postId : String
  categoryId : String
  deriving DecidableEq, Repr

/-- Role enum of profiles (user_role in schema.ts). -/
inductive UserRole where
  | user
  | moderator
  | admin
  deriving DecidableEq, Repr

/-- Row of the profiles table (schema.ts). -/
structure Profile where
  id : String
  username : String
  fullName : Option String
  bio : Option String
  avatarUrl : Option String
  role : UserRole
  createdAt : Int
  updatedAt : Int
  deriving DecidableEq, Repr

/-- The storage state: one list of rows per table of the schema. -/
structure DB where
  profiles : List Profile
  todos : List Todo
  posts : List Post
  comments : List Comment
  categories : List Category
  postCategories : List PostCategory
  deriving DecidableEq, Repr

/-- Model of the isAuthed middleware (trpc.ts): a protected procedure body
runs only when a caller identity is resolved; otherwise the request fails
with UNAUTHORIZED before the body (and hence any storage access) runs. -/
def requireAuth (db : DB) (user : Option AuthUser)
    (body : AuthUser → Except TrpcErr α × DB) : Except TrpcErr α × DB :=
  match user with
  | none => (Except.error ⟨ErrCode.UNAUTHORIZED, "Not authenticated"⟩, db)
  | some u => body u

/-- Result code of a procedure outcome, for stating error claims. -/
def resCode : Except TrpcErr α × DB → Option ErrCode
  | (Except.error e, _) => some e.code
  | (Except.ok _, _) => none

/-- Milliseconds in one day, as written in todo.ts (1000 * 60 * 60 * 24). -/
def msPerDay : Int := 1000 * 60 * 60 * 24

/-- Descending creation time: the order used by orderBy(desc(createdAt))
for todos. -/
def todoNewerFirst (a b : Todo) : Prop := b.createdAt ≤ a.createdAt

instance : DecidableRel todoNewerFirst :=
  fun a b => inferInstanceAs (Decidable (b.createdAt ≤ a.createdAt))

instance : IsTotal Todo todoNewerFirst :=
  ⟨fun a b => le_total b.createdAt a.createdAt⟩

instance : IsTrans Todo todoNewerFirst :=
  ⟨fun _ _ _ h1 h2 => le_trans h2 h1⟩

/-- Descending creation time for comments (orderBy(desc(createdAt))). -/
def commentNewerFirst (a b : Comment) : Prop := b.createdAt ≤ a.createdAt

instance : DecidableRel commentNewerFirst :=
  fun a b => inferInstanceAs (Decidable (b.createdAt ≤ a.createdAt))

instance : IsTotal Comment commentNewerFirst :=
  ⟨fun a b => le_total b.createdAt a.createdAt⟩

instance : IsTrans Comment commentNewerFirst :=
  ⟨fun _ _ _ h1 h2 => le_trans h2 h1⟩

/-- Order used by post.list, orderBy(desc(publishedAt), desc(createdAt)).
Under Postgres a bare DESC sorts nulls first, then values descending. -/
def postListBeforeB (a b : Post) : Bool :=
  match a.publishedAt, b.publishedAt with
  | none, none => b.createdAt ≤ a.createdAt
  | none, some _ => true
  | some _, none => false
  | some x, some y => y < x || (x == y && b.createdAt ≤ a.createdAt)

/-- Propositional form of the post.list row order. -/
def postListBefore (a b : Post) : Prop := postListBeforeB a b = true

instance : DecidableRel postListBefore :=
  fun a b => inferInstanceAs (Decidable (postListBeforeB a b = true))

/-- SQL LIKE matching over character lists: percent matches any run,
underscore matches one character, all else is literal. -/
def likeMatch : List Char → List Char → Bool
  | [], [] => true
  | '%' :: ps, [] => likeMatch ps []
  | _ :: _, [] => false
  | [], _ :: _ => false
  | '%' :: ps, c :: cs => likeMatch ps (c :: cs) || likeMatch ('%' :: ps) cs
  | '_' :: ps, _ :: cs => likeMatch ps cs
  | p :: ps, c :: cs => p == c && likeMatch ps cs
termination_by p t => (p.length, t.length)

/-- Model of the SQL predicate `col LIKE '%' || s || '%'` used by the
search filter of post.list. -/
def sqlLikeContains (s : String) (col : String) : Bool :=
  likeMatch ("%" ++ s ++ "%").data col.data

/-! ## Todo router (packages/api/src/routers/todo.ts) -/

/-- Output rows of todo.list: the row spread together with the two
computed fields (TodoWithMetadata). -/
structure TodoWithMetadata where
  base : Todo
  isOverdue : Bool
  daysOld : Int
  deriving DecidableEq, Repr

/-- todo.list: select the rows of the caller ordered by descending
creation time, then annotate each row with isOverdue and daysOld. -/
def todoList (db : DB) (user : Option AuthUser) (now : Int) :
    Except TrpcErr (List TodoWithMetadata) × DB :=
  requireAuth db user fun u =>
    let userTodos :=
      List.insertionSort todoNewerFirst
        (db.todos.filter (fun t => t.userId == u.id))
    (Except.ok (userTodos.map fun t =>
      { base := t
        isOverdue := if t.completed then false
                     else decide (t.createdAt < now - 7 * msPerDay)
        daysOld := (now - t.createdAt).fdiv msPerDay }), db)

/-- Input of todo.update: id plus the optional fields; the outer Option is
field presence, the inner Option of description is an explicit null. -/
structure TodoUpdateInput where
  id : String
  title : Option String
  description : Option (Option String)
  completed : Option Bool
  deriving DecidableEq, Repr

/-- Field application of the todo.update set clause. -/
def applyTodoUpdates (input : TodoUpdateInput) (now : Int) (t : Todo) : Todo :=
  { t with
    title := input.title.getD t.title
    description := input.description.getD t.description
    completed := input.completed.getD t.completed
    updatedAt := now }

/-- todo.update: the ownership probe selects by id AND userId, so a row
owned by someone else is indistinguishable from an absent row and the
procedure answers NOT_FOUND; the second statement updates by id only. -/
def todoUpdate (db : DB) (user : Option AuthUser) (input : TodoUpdateInput)
    (now : Int) : Except TrpcErr Todo × DB :=
  requireAuth db user fun u =>
    match db.todos.find? (fun t => t.id == input.id && t.userId == u.id) with
    | none => (Except.error ⟨ErrCode.NOT_FOUND, "Todo not found"⟩, db)
    | some _ =>
      let newTodos :=
        db.todos.map fun t =>
          if t.id == input.id then applyTodoUpdates input now t else t
      let db' : DB := { db with todos := newTodos }
      match newTodos.find? (fun t => t.id == input.id) with
      | none =>
        (Except.error ⟨ErrCode.INTERNAL_SERVER_ERROR, "Failed to update todo"⟩, db')
      | some t => (Except.ok t, db')

/-- todo.delete: deletes by id AND userId and reports NOT_FOUND when the
where-clause matched no row, again folding ownership into the filter. -/
def todoDelete (db : DB) (user : Option AuthUser) (id : String) :
    Except TrpcErr Bool × DB :=
  requireAuth db user fun u =>
    let deleted := db.todos.filter (fun t => t.id == id && t.userId == u.id)
    let db' : DB :=
      { db with todos := db.todos.filter (fun t => !(t.id == id && t.userId == u.id)) }
    if deleted.length == 0 then
      (Except.error ⟨ErrCode.NOT_FOUND, "Todo not found"⟩, db)
    else (Except.ok true, db')

/-- Output of todo.getStats. -/
structure TodoStats where
  total : Int
  completed : Int
  pending : Int
  completionRate : Rat
  deriving DecidableEq, Repr

/-- Math.round of JS on an exact rational: floor of q + 1/2. -/
def jsRound (q : Rat) : Int := Rat.floor (q + 1/2)

/-- todo.getStats: count rows and completed rows of the caller, then
pending = total - completed and completionRate = Math.round(rate*100)/100
where rate is (completed/total)*100 when total > 0 and 0 otherwise. -/
def todoGetStats (db : DB) (user : Option AuthUser) :
    Except TrpcErr TodoStats × DB :=
  requireAuth db user fun u =>
    let rows := db.todos.filter (fun t => t.userId == u.id)
    let total : Int := rows.length
    let completed : Int := (rows.filter (fun t => t.completed)).length
    let pending : Int := total - completed
    let completionRate : Rat :=
      if total > 0 then ((completed : Rat) / (total : Rat)) * 100 else 0
    (Except.ok
      { total := total
        completed := completed
        pending := pending
        completionRate := (jsRound (completionRate * 100) : Rat) / 100 }, db)

/-! ## Profile router (getByUsername; source in the unnamed router file) -/

/-- Reduced field set returned by profile.getByUsername. -/
structure ProfilePublic where
  id : String
  username : String
  fullName : Option String
  avatarUrl : Option String
  createdAt : Int
  deriving DecidableEq, Repr

/-- profile.getByUsername: declared with protectedProcedure in the source,
so the isAuthed middleware runs first; the body selects the reduced field
set by username. -/
def profileGetByUsername (db : DB) (user : Option AuthUser) (username : String) :
    Except TrpcErr ProfilePublic × DB :=
  requireAuth db user fun _u =>
    match db.profiles.find? (fun pr => pr.username == username) with
    | none => (Except.error ⟨ErrCode.NOT_FOUND, "Profile not found"⟩, db)
    | some pr =>
      (Except.ok ⟨pr.id, pr.username, pr.fullName, pr.avatarUrl, pr.createdAt⟩, db)

/-! ## Post router (source in the unnamed router file) -/

/-- Author summary embedded by the post queries. -/
structure AuthorSummary where
  id : String
  username : String
  fullName : Option String
  avatarUrl : Option String
  deriving DecidableEq, Repr

/-- Author summary selection (leftJoin on profiles). -/
def authorSummaryOf (db : DB) (authorId : String) : Option AuthorSummary :=
  (db.profiles.find? (fun pr => pr.id == authorId)).map
    fun pr => ⟨pr.id, pr.username, pr.fullName, pr.avatarUrl⟩

/-- Category summary fetched per post row. -/
structure CategorySummary where
  id : String
  name : String
  slug : String
  description : Option String
  deriving DecidableEq, Repr

/-- Categories attached to a post (postCategories innerJoin categories). -/
def categoriesOfPost (db : DB) (postId : String) : List CategorySummary :=
  (db.postCategories.filter (fun pc => pc.postId == postId)).filterMap
    fun pc =>
      (db.categories.find? (fun c => c.id == pc.categoryId)).map
        fun c => ⟨c.id, c.name, c.slug, c.description⟩

/-- Comment count of a post (count aggregate over comments). -/
def commentCountOf (db : DB) (postId : String) : Int :=
  (db.comments.filter (fun c => c.postId == postId)).length

/-- Input of post.list after zod validation (limit 1..100 default 10,
offset ge 0 default 0). -/
structure PostListInput where
  limit : Nat
  offset : Nat
  status : Option PostStatus
  categorySlug : Option String
  search : Option String
  deriving DecidableEq, Repr

/-- Row shape of the post.list result. -/
structure PostListRow where
  post : Post
  author : Option AuthorSummary
  categories : List CategorySummary
  commentCount : Int
  deriving DecidableEq, Repr

/-- Output of post.list. -/
structure PostListOutput where
  posts : List PostListRow
  total : Int
  hasMore : Bool
  deriving DecidableEq, Repr

/-- Status and search conditions of post.list (the conditions array of the
source): status filter defaulting to published, plus the LIKE search over
title and content; a JS falsy (empty) search string adds no condition. -/
def postMatchesBase (input : PostListInput) (p : Post) : Bool :=
  (match input.status with
   | some st => p.status == st
   | none => p.status == PostStatus.published) &&
  (match input.search with
   | some s => if s == "" then true
               else sqlLikeContains s p.title || sqlLikeContains s p.content
   | none => true)

/-- Category filter resolution of post.list: a falsy slug is skipped, an
unmatched slug leaves the filter unset (the filter is silently dropped). -/
def categoryFilterId (db : DB) (input : PostListInput) : Option String :=
  match input.categorySlug with
  | some cs =>
    if cs == "" then none
    else (db.categories.find? (fun c => c.slug == cs)).map (fun c => c.id)
  | none => none

/-- Full row condition of post.list: the base conditions, and when a
category id was resolved, an inner join against post_categories (at most
one link per pair exists thanks to the composite primary key, so the join
is membership of a link row). -/
def postRowMatches (db : DB) (input : PostListInput) (p : Post) : Bool :=
  postMatchesBase input p &&
  (match categoryFilterId db input with
   | some cid =>
     (db.postCategories.find? (fun pc => pc.postId == p.id && pc.categoryId == cid)).isSome
   | none => true)

/-- post.list: filter, order, offset/limit, hydrate each row; the total
count query reuses only the conditions array (status and search), not the
category join. -/
def postList (db : DB) (input : PostListInput) :
    Except TrpcErr PostListOutput × DB :=
  let filtered :=
    List.insertionSort postListBefore (db.posts.filter (postRowMatches db input))
  let page := (filtered.drop input.offset).take input.limit
  let rows := page.map fun p =>
    { post := p
      author := authorSummaryOf db p.authorId
      categories := categoriesOfPost db p.id
      commentCount := commentCountOf db p.id }
  let total : Int := (db.posts.filter (postMatchesBase input)).length
  (Except.ok
    { posts := rows
      total := total
      hasMore := decide ((input.offset : Int) + (input.limit : Int) < total) }, db)

/-- Author summary with bio, as selected by post.getBySlug. -/
structure AuthorSummaryBio where
  id : String
  username : String
  fullName : Option String
  avatarUrl : Option String
  bio : Option String
  deriving DecidableEq, Repr

/-- Output of post.getBySlug; the post row carries the view count as
selected, before the increment statement runs. -/
structure PostBySlugOutput where
  post : Post
  author : Option AuthorSummaryBio
  categories : List CategorySummary
  commentCount : Int
  deriving DecidableEq, Repr

/-- Visibility guard of post.getBySlug: a post is hidden when it is not
published and the caller is absent or not the author. -/
def slugHidden (user : Option AuthUser) (post : Post) : Bool :=
  post.status != PostStatus.published &&
    (match user with
     | none => true
     | some u => u.id != post.authorId)

/-- post.getBySlug: select by slug, hide non-published posts from callers
other than the author, hydrate, then increment the view counter of the
fetched post as a side effect of the successful fetch. -/
def postGetBySlug (db : DB) (user : Option AuthUser) (slug : String) :
    Except TrpcErr PostBySlugOutput × DB :=
  match db.posts.find? (fun p => p.slug == slug) with
  | none => (Except.error ⟨ErrCode.NOT_FOUND, "Post not found"⟩, db)
  | some post =>
    if slugHidden user post then
      (Except.error ⟨ErrCode.FORBIDDEN, "Post not available"⟩, db)
    else
      let author :=
        (db.profiles.find? (fun pr => pr.id == post.authorId)).map
          fun pr => AuthorSummaryBio.mk pr.id pr.username pr.fullName pr.avatarUrl pr.bio
      let db' : DB :=
        { db with posts := db.posts.map fun p =>
            if p.id == post.id then { p with viewCount := p.viewCount + 1 } else p }
      (Except.ok
        { post := post
          author := author
          categories := categoriesOfPost db post.id
          commentCount := commentCountOf db post.id }, db')

/-- Input of post.create after zod validation (status defaults to draft
when omitted). -/
structure PostCreateInput where
  title : String
  slug : String
  content : String
  excerpt : Option String
  coverImage : Option String
  status : PostStatus
  categoryIds : Option (List String)
  deriving DecidableEq, Repr

/-- post.create: reject a duplicate slug with BAD_REQUEST, insert the row
with publishedAt stamped exactly when the initial status is published, then
attach the category links when ids were supplied. -/
def postCreate (db : DB) (user : Option AuthUser) (input : PostCreateInput)
    (now : Int) (newId : String) : Except TrpcErr Post × DB :=
  requireAuth db user fun u =>
    if (db.posts.find? (fun p => p.slug == input.slug)).isSome then
      (Except.error ⟨ErrCode.BAD_REQUEST, "Slug already exists"⟩, db)
    else
      let newPost : Post :=
        { id := newId
          title := input.title
          slug := input.slug
          content := input.content
          excerpt := input.excerpt
          coverImage := input.coverImage
          status := input.status
          viewCount := 0
          authorId := u.id
          publishedAt := if input.status == PostStatus.published then some now else none
          createdAt := now
          updatedAt := now }
      let db' : DB := { db with posts := db.posts ++ [newPost] }
      let db'' : DB :=
        match input.categoryIds with
        | some cids =>
          if cids.length > 0 then
            { db' with postCategories :=
                db'.postCategories ++ cids.map fun cid => ⟨newId, cid⟩ }
          else db'
        | none => db'
      (Except.ok newPost, db'')

/-- Input of post.update; outer Option is field presence, the inner Option
of excerpt and coverImage is an explicit null. -/
structure PostUpdateInput where
  id : String
  title : Option String
  slug : Option String
  content : Option String
  excerpt : Option (Option String)
  coverImage : Option (Option String)
  status : Option PostStatus
  categoryIds : Option (List String)
  deriving DecidableEq, Repr

/-- Field application of the post.update set clause; pubAt models the
publishedAt value of the source, which is a fresh timestamp exactly on the
transition into published and undefined (column untouched) otherwise. -/
def applyPostUpdates (input : PostUpdateInput) (pubAt : Option Int) (now : Int)
    (p : Post) : Post :=
  { p with
    title := input.title.getD p.title
    slug := input.slug.getD p.slug
    content := input.content.getD p.content
    excerpt := input.excerpt.getD p.excerpt
    coverImage := input.coverImage.getD p.coverImage
    status := input.status.getD p.status
    publishedAt :=
      match pubAt with
      | some t => some t
      | none => p.publishedAt
    updatedAt := now }

/-- post.update: NOT_FOUND when no row has the id, FORBIDDEN when the
caller is not the author, BAD_REQUEST when a supplied slug is held by a
different post, else update the row (stamping publishedAt only on the
transition from non-published to published) and, when categoryIds was
supplied, replace the full category link set (delete then insert). -/
def postUpdate (db : DB) (user : Option AuthUser) (input : PostUpdateInput)
    (now : Int) : Except TrpcErr Post × DB :=
  requireAuth db user fun u =>
    match db.posts.find? (fun p => p.id == input.id) with
    | none => (Except.error ⟨ErrCode.NOT_FOUND, "Post not found"⟩, db)
    | some existing =>
      let slugTaken : Bool :=
        match input.slug with
        | some s =>
          (db.posts.find? (fun p => p.slug == s && !(p.id == input.id))).isSome
        | none => false
      if existing.authorId ≠ u.id then
        (Except.error ⟨ErrCode.FORBIDDEN, "You can only update your own posts"⟩, db)
      else if slugTaken then
        (Except.error ⟨ErrCode.BAD_REQUEST, "Slug already exists"⟩, db)
      else
        let pubAt : Option Int :=
          if input.status == some PostStatus.published &&
              existing.status != PostStatus.published then some now else none
        let newPosts :=
          db.posts.map fun p =>
            if p.id == input.id then applyPostUpdates input pubAt now p else p
        let db' : DB := { db with posts := newPosts }
        let db'' : DB :=
          match input.categoryIds with
          | some cids =>
            { db' with postCategories :=
                (db'.postCategories.filter (fun pc => !(pc.postId == input.id))) ++
                  cids.map fun cid => ⟨input.id, cid⟩ }
          | none => db'
        (Except.ok (applyPostUpdates input pubAt now existing), db'')

/-- post.delete: NOT_FOUND when no row has the id, FORBIDDEN when the
caller is not the author, else delete the row; the comment and category
link rows disappear through the relational cascades. -/
def postDelete (db : DB) (user : Option AuthUser) (id : String) :
    Except TrpcErr Bool × DB :=
  requireAuth db user fun u =>
    match db.posts.find? (fun p => p.id == id) with
    | none => (Except.error ⟨ErrCode.NOT_FOUND, "Post not found"⟩, db)
    | some existing =>
      if existing.authorId ≠ u.id then
        (Except.error ⟨ErrCode.FORBIDDEN, "You can only delete your own posts"⟩, db)
      else
        (Except.ok true,
          { db with
            posts := db.posts.filter (fun p => !(p.id == id))
            comments := db.comments.filter (fun c => !(c.postId == id))
            postCategories := db.postCategories.filter (fun pc => !(pc.postId == id)) })

/-! ## Comment router (packages/api/src/routers/comment.ts)

The tree assembly of getByPostId mutates shared node objects: pass one
stores one node per comment id in a map, pass two pushes each node onto
the reply list of its parent node, or onto the root list when it has no
parent. Nodes are modelled by their ids: the assembled result is the pair
of the reply adjacency (an association list from comment id to the reply
id list, in push order) and the root id list, which together determine
the returned object graph. -/

/-- Pass one of the tree assembly: every fetched comment gets a node with
an empty reply list. -/
def emptyReplies (l : List Comment) : List (String × List String) :=
  l.map fun c => (c.id, ([] : List String))

/-- One step of pass two: a comment with a parent id is appended to the
reply list of the parent node when that node exists (and is dropped
silently otherwise); a comment without a parent id goes to the root list. -/
def attachOne (st : List (String × List String) × List String) (c : Comment) :
    List (String × List String) × List String :=
  match c.parentId with
  | some pid =>
    if (st.1.lookup pid).isSome then
      (st.1.map fun e => if e.1 == pid then (e.1, e.2 ++ [c.id]) else e, st.2)
    else st
  | none => (st.1, st.2 ++ [c.id])

/-- The two-pass tree assembly of getByPostId over the fetched rows. -/
def buildTree (l : List Comment) : List (String × List String) × List String :=
  l.foldl attachOne (emptyReplies l, [])

/-- Rows fetched by getByPostId: the comments of the post ordered by
descending creation time. -/
def commentTreeRows (db : DB) (postId : String) : List Comment :=
  List.insertionSort commentNewerFirst
    (db.comments.filter (fun c => c.postId == postId))

/-- comment.getByPostId: verify the post exists, fetch the comments
ordered by descending creation time, then assemble the reply tree. -/
def commentGetByPostId (db : DB) (postId : String) :
    Except TrpcErr (List (String × List String) × List String) × DB :=
  match db.posts.find? (fun p => p.id == postId) with
  | none => (Except.error ⟨ErrCode.NOT_FOUND, "Post not found"⟩, db)
  | some _ => (Except.ok (buildTree (commentTreeRows db postId)), db)

/-- Input of comment.create. -/
structure CommentCreateInput where
  postId : String
  content : String
  parentId : Option String
  deriving DecidableEq, Repr

/-- comment.create: the target post must exist (NOT_FOUND) and be
published (BAD_REQUEST); a supplied parent comment must exist (NOT_FOUND)
and belong to the same post (BAD_REQUEST); then the row is inserted with
the caller as author. -/
def commentCreate (db : DB) (user : Option AuthUser) (input : CommentCreateInput)
    (now : Int) (newId : String) :
    Except TrpcErr (Comment × Option AuthorSummary) × DB :=
  requireAuth db user fun u =>
    match db.posts.find? (fun p => p.id == input.postId) with
    | none => (Except.error ⟨ErrCode.NOT_FOUND, "Post not found"⟩, db)
    | some post =>
      if post.status != PostStatus.published then
        (Except.error ⟨ErrCode.BAD_REQUEST, "Cannot comment on unpublished posts"⟩, db)
      else
        let parentCheck : Option TrpcErr :=
          match input.parentId with
          | some pid =>
            match db.comments.find? (fun c => c.id == pid) with
            | none => some ⟨ErrCode.NOT_FOUND, "Parent comment not found"⟩
            | some parent =>
              if parent.postId != input.postId then
                some ⟨ErrCode.BAD_REQUEST, "Parent comment belongs to a different post"⟩
              else none
          | none => none
        match parentCheck with
        | some e => (Except.error e, db)
        | none =>
          let newComment : Comment :=
            { id := newId
              content := input.content
              postId := input.postId
              authorId := u.id
              parentId := input.parentId
              createdAt := now
              updatedAt := now }
          (Except.ok (newComment, authorSummaryOf db u.id),
            { db with comments := db.comments ++ [newComment] })

/-- comment.update: NOT_FOUND when no row has the id, FORBIDDEN when the
caller is not the author, else update the content. -/
def commentUpdate (db : DB) (user : Option AuthUser) (id : String)
    (content : String) (now : Int) : Except TrpcErr (Option Comment) × DB :=
  requireAuth db user fun u =>
    match db.comments.find? (fun c => c.id == id) with
    | none => (Except.error ⟨ErrCode.NOT_FOUND, "Comment not found"⟩, db)
    | some existing =>
      if existing.authorId ≠ u.id then
        (Except.error ⟨ErrCode.FORBIDDEN, "You can only update your own comments"⟩, db)
      else
        let newComments :=
          db.comments.map fun c =>
            if c.id == id then { c with content := content, updatedAt := now } else c
        (Except.ok (newComments.find? (fun c => c.id == id)),
          { db with comments := newComments })

/-- comment.delete: NOT_FOUND when no row has the id, FORBIDDEN when the
caller is not the author, else delete the row; reply rows disappear
through the relational cascade, which is storage behavior outside the
router code and is not modelled. -/
def commentDelete (db : DB) (user : Option AuthUser) (id : String) :
    Except TrpcErr Bool × DB :=
  requireAuth db user fun u =>
    match db.comments.find? (fun c => c.id == id) with
    | none => (Except.error ⟨ErrCode.NOT_FOUND, "Comment not found"⟩, db)
    | some existing =>
      if existing.authorId ≠ u.id then
        (Except.error ⟨ErrCode.FORBIDDEN, "You can only delete your own comments"⟩, db)
      else
        (Except.ok true, { db with comments := db.comments.filter (fun c => !(c.id == id)) })

/-! ## Category router (source in the unnamed router file) -/

/-- Input of category.update. -/
structure CategoryUpdateInput where
  id : String
  name : Option String
  slug : Option String
  description : Option (Option String)
  deriving DecidableEq, Repr

/-- category.update: NOT_FOUND when no row has the id, BAD_REQUEST when a
supplied slug is held by a different category, else update; the procedure
performs no ownership check beyond the authentication middleware. -/
def categoryUpdate (db : DB) (user : Option AuthUser) (input : CategoryUpdateInput)
    (now : Int) : Except TrpcErr (Option Category) × DB :=
  requireAuth db user fun _u =>
    match db.categories.find? (fun c => c.id == input.id) with
    | none => (Except.error ⟨ErrCode.NOT_FOUND, "Category not found"⟩, db)
    | some _ =>
      let slugTaken : Bool :=
        match input.slug with
        | some s =>
          (db.categories.find? (fun c => c.slug == s && !(c.id == input.id))).isSome
        | none => false
      if slugTaken then
        (Except.error ⟨ErrCode.BAD_REQUEST, "Category slug already exists"⟩, db)
      else
        let newCategories :=
          db.categories.map fun c =>
            if c.id == input.id then
              { c with
                name := input.name.getD c.name
                slug := input.slug.getD c.slug
                description := input.description.getD c.description
                updatedAt := now }
            else c
        (Except.ok (newCategories.find? (fun c => c.id == input.id)),
          { db with categories := newCategories })

/-- category.delete: NOT_FOUND when no row has the id, BAD_REQUEST when
any post link exists, else delete; again no ownership check beyond the
authentication middleware. -/
def categoryDelete (db : DB) (user : Option AuthUser) (id : String) :
    Except TrpcErr Bool × DB :=
  requireAuth db user fun _u =>
    match db.categories.find? (fun c => c.id == id) with
    | none => (Except.error ⟨ErrCode.NOT_FOUND, "Category not found"⟩, db)
    | some _ =>
      if 0 < (db.postCategories.filter (fun pc => pc.categoryId == id)).length then
        (Except.error ⟨ErrCode.BAD_REQUEST, "Cannot delete category with existing posts"⟩, db)
      else
        (Except.ok true,
          { db with categories := db.categories.filter (fun c => !(c.id == id)) })

/-! ## Helper lemmas -/

/-- Bridge between the executable Batteries floor and the Mathlib floor. -/
theorem ratFloor_eq_intFloor (q : Rat) : Rat.floor q = ⌊q⌋ := by
  rw [Rat.floor_def', Rat.floor_def]

/-- Rounding zero gives zero. -/
theorem jsRound_zero : jsRound 0 = 0 := by
  unfold jsRound
  rw [ratFloor_eq_intFloor, zero_add, Int.floor_eq_zero_iff]
  constructor <;> norm_num

/-- Round to two decimals, the formula named by the spec. -/
def round2 (q : Rat) : Rat := (jsRound (q * 100) : Rat) / 100

/-! ## Claim C7 -/

/-- Claim C7: for a caller with N todos of which K are completed,
todo.getStats returns total = N, completed = K, pending = N - K, and
completionRate = round(100 * K / N, 2) when N > 0, else 0. Arithmetic is
modelled over exact rationals. -/
theorem todo_getStats_formula (db : DB) (u : AuthUser) :
    ∃ s : TodoStats,
      todoGetStats db (some u) = (Except.ok s, db) ∧
      s.total = ((db.todos.filter (fun t => t.userId == u.id)).length : Int) ∧
      s.completed =
        (((db.todos.filter (fun t => t.userId == u.id)).filter
          (fun t => t.completed)).length : Int) ∧
      s.pending = s.total - s.completed ∧
      s.completionRate =
        (if s.total > 0 then round2 ((100 * (s.completed : Rat)) / (s.total : Rat))
         else 0) := by
  refine ⟨_, rfl, rfl, rfl, rfl, ?_⟩
  simp only [todoGetStats, requireAuth, round2]
  by_cases h :
      ((db.todos.filter (fun t => t.userId == u.id)).length : Int) > 0
  · rw [if_pos h, if_pos h]
    congr 2
    ring_nf
  · rw [if_neg h, if_neg h, zero_mul, jsRound_zero]
    norm_num

/-! ## Claim C8 -/

/-- Claim C8: todo.list returns exactly the todos of the caller ordered by
descending creation time, and for every returned row isOverdue holds iff
the todo is incomplete and was created more than 7 days before now, while
daysOld is the floor of the elapsed time in days. -/
theorem todo_list_spec (db : DB) (u : AuthUser) (now : Int) :
    ∃ l : List TodoWithMetadata,
      todoList db (some u) now = (Except.ok l, db) ∧
      (l.map (fun x => x.base)).Perm
        (db.todos.filter (fun t => t.userId == u.id)) ∧
      l.Pairwise (fun a b => b.base.createdAt ≤ a.base.createdAt) ∧
      ∀ x ∈ l,
        (x.isOverdue = true ↔
          x.base.completed = false ∧ x.base.createdAt < now - 7 * msPerDay) ∧
        x.daysOld = (now - x.base.createdAt).fdiv msPerDay := by
  refine ⟨_, rfl, ?_, ?_, ?_⟩
  · rw [List.map_map]
    have hid :
        ((fun x : TodoWithMetadata => x.base) ∘
          (fun t : Todo =>
            ({ base := t
               isOverdue := if t.completed then false
                            else decide (t.createdAt < now - 7 * msPerDay)
               daysOld := (now - t.createdAt).fdiv msPerDay } : TodoWithMetadata))) =
          fun t => t := by
      funext t; rfl
    rw [hid, List.map_id']
    exact List.perm_insertionSort _ _
  · rw [List.pairwise_map]
    have hs := List.sorted_insertionSort todoNewerFirst
      (db.todos.filter (fun t => t.userId == u.id))
    simpa [List.Sorted, todoNewerFirst] using hs
  · intro x hx
    rcases List.mem_map.mp hx with ⟨t, _ht, rfl⟩
    refine ⟨?_, rfl⟩
    by_cases hc : t.completed <;> simp [hc]

/-! ## Claim C6 -/

/-- Claim C6: comment.create fails with NOT_FOUND when the target post is
absent, BAD_REQUEST when it is not published, NOT_FOUND when the supplied
parent comment is absent, BAD_REQUEST when the parent belongs to a
different post, and otherwise inserts the comment with the caller as
author. -/
theorem comment_create_preconditions (db : DB) (u : AuthUser)
    (input : CommentCreateInput) (now : Int) (newId : String) :
    (db.posts.find? (fun p => p.id == input.postId) = none →
      commentCreate db (some u) input now newId =
        (Except.error ⟨ErrCode.NOT_FOUND, "Post not found"⟩, db)) ∧
    (∀ post, db.posts.find? (fun p => p.id == input.postId) = some post →
      post.status ≠ PostStatus.published →
      commentCreate db (some u) input now newId =
        (Except.error ⟨ErrCode.BAD_REQUEST, "Cannot comment on unpublished posts"⟩, db)) ∧
    (∀ post pid, db.posts.find? (fun p => p.id == input.postId) = some post →
      post.status = PostStatus.published →
      input.parentId = some pid →
      db.comments.find? (fun c => c.id == pid) = none →
      commentCreate db (some u) input now newId =
        (Except.error ⟨ErrCode.NOT_FOUND, "Parent comment not found"⟩, db)) ∧
    (∀ post pid parent, db.posts.find? (fun p => p.id == input.postId) = some post →
      post.status = PostStatus.published →
      input.parentId = some pid →
      db.comments.find? (fun c => c.id == pid) = some parent →
      parent.postId ≠ input.postId →
      commentCreate db (some u) input now newId =
        (Except.error ⟨ErrCode.BAD_REQUEST, "Parent comment belongs to a different post"⟩, db)) ∧
    (∀ post, db.posts.find? (fun p => p.id == input.postId) = some post →
      post.status = PostStatus.published →
      (input.parentId = none ∨
        ∃ pid parent, input.parentId = some pid ∧
          db.comments.find? (fun c => c.id == pid) = some parent ∧
          parent.postId = input.postId) →
      ∃ c : Comment,
        commentCreate db (some u) input now newId =
          (Except.ok (c, authorSummaryOf db u.id),
            { db with comments := db.comments ++ [c] }) ∧
        c.authorId = u.id ∧ c.postId = input.postId ∧
        c.content = input.content ∧ c.parentId = input.parentId) := by
  refine ⟨?_, ?_, ?_, ?_, ?_⟩
  · intro h
    simp [commentCreate, requireAuth, h]
  · intro post h hs
    simp [commentCreate, requireAuth, h, bne_iff_ne, hs]
  · intro post pid h hs hp hc
    simp [commentCreate, requireAuth, h, bne_iff_ne, hs, hp, hc]
  · intro post pid parent h hs hp hc hne
    simp [commentCreate, requireAuth, h, bne_iff_ne, hs, hp, hc, hne]
  · intro post h hs hpar
    refine ⟨⟨newId, input.content, input.postId, u.id, input.parentId, now, now⟩,
      ?_, rfl, rfl, rfl, rfl⟩
    rcases hpar with hnone | ⟨pid, parent, hp, hc, heq⟩
    · simp [commentCreate, requireAuth, h, bne_iff_ne, hs, hnone]
    · simp [commentCreate, requireAuth, h, bne_iff_ne, hs, hp, hc, heq]

/-- Published sample post P by author a. -/
def postP : Post := ⟨"P", "t", "p", "x", none, none, PostStatus.published, 0, "a", some 5, 1, 1⟩

/-- Draft sample post D by author a. -/
def postD : Post := ⟨"D", "t", "d", "x", none, none, PostStatus.draft, 0, "a", none, 2, 2⟩

/-- Sample comment on post P. -/
def comC1 : Comment := ⟨"c1", "hi", "P", "a", none, 3, 3⟩

/-- Sample comment on post D. -/
def comC2 : Comment := ⟨"c2", "hi", "D", "a", none, 4, 4⟩

/-- Sample storage state for the comment.create witness: a published post
P and a draft post D by author a, a comment c1 on P and a comment c2 on D. -/
def dbC6 : DB :=
  { profiles := [⟨"a", "alice", none, none, none, UserRole.user, 0, 0⟩]
    todos := []
    posts := [postP, postD]
    comments := [comC1, comC2]
    categories := []
    postCategories := [] }

/-- Witness for claim C6: every branch of the precondition theorem fires
on a concrete storage state. -/
theorem comment_create_preconditions_witness :
    (commentCreate dbC6 (some ⟨"a", none⟩) ⟨"Z", "hi", none⟩ 9 "n1" =
      (Except.error ⟨ErrCode.NOT_FOUND, "Post not found"⟩, dbC6)) ∧
    (commentCreate dbC6 (some ⟨"a", none⟩) ⟨"D", "hi", none⟩ 9 "n1" =
      (Except.error ⟨ErrCode.BAD_REQUEST, "Cannot comment on unpublished posts"⟩, dbC6)) ∧
    (commentCreate dbC6 (some ⟨"a", none⟩) ⟨"P", "hi", some "nope"⟩ 9 "n1" =
      (Except.error ⟨ErrCode.NOT_FOUND, "Parent comment not found"⟩, dbC6)) ∧
    (commentCreate dbC6 (some ⟨"a", none⟩) ⟨"P", "hi", some "c2"⟩ 9 "n1" =
      (Except.error ⟨ErrCode.BAD_REQUEST, "Parent comment belongs to a different post"⟩, dbC6)) ∧
    (∃ c : Comment,
      commentCreate dbC6 (some ⟨"a", none⟩) ⟨"P", "hi", some "c1"⟩ 9 "n1" =
        (Except.ok (c, authorSummaryOf dbC6 "a"),
          { dbC6 with comments := dbC6.comments ++ [c] }) ∧
      c.authorId = "a" ∧ c.postId = "P" ∧ c.content = "hi" ∧ c.parentId = some "c1") :=
  ⟨(comment_create_preconditions dbC6 ⟨"a", none⟩ ⟨"Z", "hi", none⟩ 9 "n1").1
      (by decide),
   (comment_create_preconditions dbC6 ⟨"a", none⟩ ⟨"D", "hi", none⟩ 9 "n1").2.1
      postD (by decide) (by decide),
   (comment_create_preconditions dbC6 ⟨"a", none⟩ ⟨"P", "hi", some "nope"⟩ 9 "n1").2.2.1
      postP "nope" (by decide) (by decide) rfl (by decide),
   (comment_create_preconditions dbC6 ⟨"a", none⟩ ⟨"P", "hi", some "c2"⟩ 9 "n1").2.2.2.1
      postP "c2" comC2 (by decide) (by decide) rfl (by decide) (by decide),
   (comment_create_preconditions dbC6 ⟨"a", none⟩ ⟨"P", "hi", some "c1"⟩ 9 "n1").2.2.2.2
      postP (by decide) (by decide)
      (Or.inr ⟨"c1", comC1, rfl, by decide, by decide⟩)⟩

/-! ## Claim C2 -/

/-- Sample profile row. -/
def profA : Profile := ⟨"a", "alice", none, none, none, UserRole.user, 0, 0⟩

/-- Counterexample to claim C2: profile.getByUsername is declared with
protectedProcedure, so a request with no resolved caller and an existing
username fails with UNAUTHORIZED instead of succeeding. -/
theorem getByUsername_public_counterexample :
    (dbC6.profiles.find? (fun pr => pr.username == "alice")).isSome = true ∧
    profileGetByUsername dbC6 none "alice" =
      (Except.error ⟨ErrCode.UNAUTHORIZED, "Not authenticated"⟩, dbC6) ∧
    (profileGetByUsername dbC6 none "alice").1.isOk = false :=
  ⟨rfl, rfl, rfl⟩

/-- Claim C2 as amended: getByUsername requires authentication; with no
resolved caller it yields UNAUTHORIZED without touching storage, and for
an authenticated caller and an existing username it returns exactly the
reduced field set (id, username, fullName, avatarUrl, createdAt). -/
theorem getByUsername_requires_auth (db : DB) (u : AuthUser) (username : String) :
    (profileGetByUsername db none username =
      (Except.error ⟨ErrCode.UNAUTHORIZED, "Not authenticated"⟩, db)) ∧
    (∀ pr : Profile, db.profiles.find? (fun x => x.username == username) = some pr →
      profileGetByUsername db (some u) username =
        (Except.ok ⟨pr.id, pr.username, pr.fullName, pr.avatarUrl, pr.createdAt⟩, db)) := by
  refine ⟨rfl, fun pr h => ?_⟩
  simp [profileGetByUsername, requireAuth, h]

/-- Witness for the amended claim C2 on a concrete storage state. -/
theorem getByUsername_requires_auth_witness :
    (profileGetByUsername dbC6 none "alice" =
      (Except.error ⟨ErrCode.UNAUTHORIZED, "Not authenticated"⟩, dbC6)) ∧
    profileGetByUsername dbC6 (some ⟨"b", none⟩) "alice" =
      (Except.ok ⟨"a", "alice", none, none, 0⟩, dbC6) :=
  ⟨(getByUsername_requires_auth dbC6 ⟨"b", none⟩ "alice").1,
   (getByUsername_requires_auth dbC6 ⟨"b", none⟩ "alice").2 profA (by decide)⟩

/-! ## Claim C3 -/

/-- Lookup by id commutes with an id-preserving conditional row update. -/
theorem find?_map_update (l : List Post) (i : String) (f : Post → Post)
    (hf : ∀ p, (f p).id = p.id) :
    (l.map fun p => if p.id == i then f p else p).find? (fun p => p.id == i) =
      (l.find? (fun p => p.id == i)).map f := by
  induction l with
  | nil => rfl
  | cons a as ih =>
    rw [List.map_cons]
    cases h : (a.id == i) with
    | true =>
      have h2 : ((f a).id == i) = true := by rw [hf a]; exact h
      rw [if_pos rfl, @List.find?_cons_of_pos _ (fun p => p.id == i) (f a) _ h2,
        @List.find?_cons_of_pos _ (fun p => p.id == i) a _ h]
      rfl
    | false =>
      rw [if_neg (by simp),
        @List.find?_cons_of_neg _ (fun p => p.id == i) a _ (by simp [h]),
        @List.find?_cons_of_neg _ (fun p => p.id == i) a _ (by simp [h])]
      exact ih

/-- With pairwise distinct ids, lookup by the id of a member finds it. -/
theorem find?_id_of_mem_nodup (l : List Post) (p : Post)
    (hnd : (l.map (fun q => q.id)).Nodup) (hp : p ∈ l) :
    l.find? (fun q => q.id == p.id) = some p := by
  induction l with
  | nil => cases hp
  | cons a as ih =>
    rw [List.map_cons, List.nodup_cons] at hnd
    rcases List.mem_cons.mp hp with rfl | hmem
    · simp [List.find?_cons]
    · have ha : (a.id == p.id) = false := by
        refine beq_eq_false_iff_ne.mpr fun hcontra => hnd.1 ?_
        rw [hcontra]
        exact List.mem_map.mpr ⟨p, hmem, rfl⟩
      simp [List.find?_cons, ha, ih hnd.2 hmem]

/-- Counterexample to claim C3: the author fetching their own draft post
is a successful fetch of a non-published post, and it still increments the
view counter, so the counter does not increase only on reads of published
posts. -/
theorem view_increment_only_published_counterexample :
    postD.status = PostStatus.draft ∧
    (postGetBySlug dbC6 (some ⟨"a", none⟩) "d").1.isOk = true ∧
    ((postGetBySlug dbC6 (some ⟨"a", none⟩) "d").2.posts.find?
      (fun p => p.id == "D")).map (fun p => p.viewCount) = some 1 ∧
    (dbC6.posts.find? (fun p => p.id == "D")).map (fun p => p.viewCount) = some 0 := by
  decide

/-- Claim C3 as amended: every successful post.getBySlug fetch increments
the view counter of the fetched post by exactly one and changes nothing
else; a failed fetch leaves the storage unchanged; and a successful fetch
requires the post to be published or the caller to be its author (so
author reads of unpublished posts also increment the counter). -/
theorem getBySlug_view_increment_amended (db : DB) (user : Option AuthUser)
    (slug : String) :
    (∀ e : TrpcErr, (postGetBySlug db user slug).1 = Except.error e →
      (postGetBySlug db user slug).2 = db) ∧
    (∀ post : Post, (db.posts.map (fun p => p.id)).Nodup →
      db.posts.find? (fun p => p.slug == slug) = some post →
      ((post.status = PostStatus.published ∨
          (∃ u, user = some u ∧ u.id = post.authorId)) →
        ∃ db' : DB, ∃ out : PostBySlugOutput,
          postGetBySlug db user slug = (Except.ok out, db') ∧
          out.post = post ∧
          db'.posts.find? (fun p => p.id == post.id) =
            some { post with viewCount := post.viewCount + 1 } ∧
          (∀ q ∈ db.posts, q.id ≠ post.id → q ∈ db'.posts) ∧
          db'.posts.length = db.posts.length ∧
          db'.profiles = db.profiles ∧ db'.todos = db.todos ∧
          db'.comments = db.comments ∧ db'.categories = db.categories ∧
          db'.postCategories = db.postCategories) ∧
      ((postGetBySlug db user slug).1.isOk = true →
        post.status = PostStatus.published ∨
          ∃ u, user = some u ∧ u.id = post.authorId)) := by
  have hvis : ∀ post : Post, slugHidden user post = false ↔
      (post.status = PostStatus.published ∨
        ∃ u, user = some u ∧ u.id = post.authorId) := by
    intro post
    cases user with
    | none =>
      unfold slugHidden
      constructor
      · intro h
        rcases Bool.and_eq_false_iff.mp h with h1 | h1
        · exact Or.inl (by simpa using h1)
        · cases h1
      · rintro (h | ⟨u, hu, _⟩)
        · exact Bool.and_eq_false_iff.mpr (Or.inl (by simp [h]))
        · cases hu
    | some u =>
      unfold slugHidden
      constructor
      · intro h
        rcases Bool.and_eq_false_iff.mp h with h1 | h1
        · exact Or.inl (by simpa using h1)
        · exact Or.inr ⟨u, rfl, by simpa using h1⟩
      · rintro (h | ⟨v, hv, hid⟩)
        · exact Bool.and_eq_false_iff.mpr (Or.inl (by simp [h]))
        · cases hv
          exact Bool.and_eq_false_iff.mpr (Or.inr (by simp [hid]))
  constructor
  · intro e he
    unfold postGetBySlug at he ⊢
    cases hf : db.posts.find? (fun p => p.slug == slug) with
    | none => rfl
    | some post =>
      simp only [hf] at he ⊢
      by_cases hc : slugHidden user post = true
      · rw [if_pos hc]
      · rw [if_neg hc] at he
        exact absurd he (by simp)
  · intro post hnd hf
    constructor
    · intro hb
      have hhid : slugHidden user post = false := (hvis post).mpr hb
      refine ⟨{ db with posts := db.posts.map fun p =>
                  if p.id == post.id then { p with viewCount := p.viewCount + 1 }
                  else p },
              { post := post
                author := (db.profiles.find? (fun pr => pr.id == post.authorId)).map
                  (fun pr => AuthorSummaryBio.mk pr.id pr.username pr.fullName
                    pr.avatarUrl pr.bio)
                categories := categoriesOfPost db post.id
                commentCount := commentCountOf db post.id },
              ?_, rfl, ?_, ?_, ?_, rfl, rfl, rfl, rfl, rfl⟩
      · unfold postGetBySlug
        simp only [hf]
        rw [if_neg (by simp [hhid])]
      · show (db.posts.map fun p =>
            if p.id == post.id then { p with viewCount := p.viewCount + 1 }
            else p).find? (fun p => p.id == post.id) = _
        rw [find?_map_update db.posts post.id
          (fun p => { p with viewCount := p.viewCount + 1 }) (fun p => rfl)]
        rw [find?_id_of_mem_nodup db.posts post hnd
          (List.mem_of_find?_eq_some hf)]
        rfl
      · intro q hq hne
        show q ∈ db.posts.map fun p =>
          if p.id == post.id then { p with viewCount := p.viewCount + 1 } else p
        exact List.mem_map.mpr ⟨q, hq, by simp [beq_eq_false_iff_ne.mpr hne]⟩
      · show (db.posts.map fun p =>
            if p.id == post.id then { p with viewCount := p.viewCount + 1 }
            else p).length = db.posts.length
        rw [List.length_map]
    · intro hok
      unfold postGetBySlug at hok
      simp only [hf] at hok
      by_cases hc : slugHidden user post = true
      · rw [if_pos hc] at hok
        simp [Except.isOk, Except.toBool] at hok
      · exact (hvis post).mp (by revert hc; cases slugHidden user post <;> simp)

/-- Witness for the amended claim C3 on a concrete storage state: a failed
fetch leaves storage unchanged, and a successful public fetch of the
published post increments exactly its view counter. -/
theorem getBySlug_view_increment_amended_witness :
    (postGetBySlug dbC6 none "d").2 = dbC6 ∧
    (∃ db' : DB, ∃ out : PostBySlugOutput,
      postGetBySlug dbC6 none "p" = (Except.ok out, db') ∧
      out.post = postP ∧
      db'.posts.find? (fun p => p.id == postP.id) =
        some { postP with viewCount := postP.viewCount + 1 } ∧
      (∀ q ∈ dbC6.posts, q.id ≠ postP.id → q ∈ db'.posts) ∧
      db'.posts.length = dbC6.posts.length ∧
      db'.profiles = dbC6.profiles ∧ db'.todos = dbC6.todos ∧
      db'.comments = dbC6.comments ∧ db'.categories = dbC6.categories ∧
      db'.postCategories = dbC6.postCategories) :=
  ⟨(getBySlug_view_increment_amended dbC6 none "d").1
      ⟨ErrCode.FORBIDDEN, "Post not available"⟩ rfl,
   ((getBySlug_view_increment_amended dbC6 none "p").2 postP (by decide)
      (by decide)).1 (Or.inl (by decide))⟩

/-! ## Claim C4 -/

/-- Draft sample post X by author a, publishedAt unset. -/
def postDraftX : Post := ⟨"X", "t", "x", "c", none, none, PostStatus.draft, 0, "a", none, 0, 0⟩

/-- Storage state with the single draft post X. -/
def dbC4 : DB :=
  { profiles := [profA]
    todos := []
    posts := [postDraftX]
    comments := []
    categories := []
    postCategories := [] }

/-- Update input switching post X to published, all other fields absent. -/
def inpPubX : PostUpdateInput :=
  ⟨"X", none, none, none, none, none, some PostStatus.published, none⟩

/-- Update input switching post X back to draft. -/
def inpDraftX : PostUpdateInput :=
  ⟨"X", none, none, none, none, none, some PostStatus.draft, none⟩

/-- State after publishing X at time 10. -/
def dbC4a : DB := (postUpdate dbC4 (some ⟨"a", none⟩) inpPubX 10).2

/-- State after reverting X to draft at time 20. -/
def dbC4b : DB := (postUpdate dbC4a (some ⟨"a", none⟩) inpDraftX 20).2

/-- State after publishing X again at time 30. -/
def dbC4c : DB := (postUpdate dbC4b (some ⟨"a", none⟩) inpPubX 30).2

/-- Counterexample to claim C4: publishedAt is not set exactly once over a
post lifetime; after publish (stamped 10), unpublish (kept 10), publish
again (stamped 30), the field has been assigned on two distinct
transitions. -/
theorem publishedAt_exactly_once_counterexample :
    ((dbC4a.posts.find? (fun p => p.id == "X")).map (fun p => p.publishedAt) =
      some (some 10)) ∧
    ((dbC4b.posts.find? (fun p => p.id == "X")).map (fun p => p.publishedAt) =
      some (some 10)) ∧
    ((dbC4c.posts.find? (fun p => p.id == "X")).map (fun p => p.publishedAt) =
      some (some 30)) := by
  decide

/-- Claim C4 as amended: publishedAt is assigned on every transition into
published, which can happen more than once over a lifetime: post.create
stamps it iff the initial status is published, post.update stamps it iff
the status changes from a non-published value to published, and any
other update leaves it at its previous value. -/
theorem publishedAt_transition_amended (db : DB) (u : AuthUser) (now : Int) :
    (∀ input : PostCreateInput, ∀ newId : String, ∀ p : Post, ∀ db' : DB,
      postCreate db (some u) input now newId = (Except.ok p, db') →
      p.publishedAt =
        (if input.status = PostStatus.published then some now else none)) ∧
    (∀ input : PostUpdateInput, ∀ existing : Post,
      (db.posts.map (fun q => q.id)).Nodup →
      db.posts.find? (fun q => q.id == input.id) = some existing →
      ∀ p : Post, ∀ db' : DB,
      postUpdate db (some u) input now = (Except.ok p, db') →
      db'.posts.find? (fun q => q.id == input.id) = some p ∧
      p.publishedAt =
        (if input.status = some PostStatus.published ∧
            existing.status ≠ PostStatus.published
         then some now else existing.publishedAt)) := by
  constructor
  · intro input newId p db' h
    unfold postCreate requireAuth at h
    dsimp only at h
    by_cases hs : (db.posts.find? (fun q => q.slug == input.slug)).isSome = true
    · rw [if_pos hs] at h
      exact absurd h (by simp)
    · rw [if_neg hs] at h
      have hp : p.publishedAt =
          (if (input.status == PostStatus.published) = true then some now
           else none) := by
        have h1 := congrArg Prod.fst h
        injection h1 with h2
        rw [← h2]
      rw [hp]
      by_cases hst : input.status = PostStatus.published
      · rw [if_pos hst, if_pos (by simp [hst])]
      · rw [if_neg hst, if_neg (by simp [hst])]
  · intro input existing hnd hf p db' h
    unfold postUpdate requireAuth at h
    dsimp only at h
    simp only [hf] at h
    by_cases ho : existing.authorId ≠ u.id
    · rw [if_pos ho] at h
      exact absurd h (by simp)
    · rw [if_neg ho] at h
      by_cases hs : (match input.slug with
          | some s =>
            (db.posts.find? (fun q => q.slug == s && !(q.id == input.id))).isSome
          | none => false) = true
      · rw [if_pos hs] at h
        exact absurd h (by simp)
      · rw [if_neg hs] at h
        have hps : p = applyPostUpdates input
            (if (input.status == some PostStatus.published &&
                 existing.status != PostStatus.published) = true
             then some now else none) now existing ∧
            db'.posts = db.posts.map fun q =>
              if q.id == input.id then
                applyPostUpdates input
                  (if (input.status == some PostStatus.published &&
                       existing.status != PostStatus.published) = true
                   then some now else none) now q
              else q := by
          rcases hcat : input.categoryIds with _ | cids <;>
            rw [hcat] at h <;> cases h <;> exact ⟨rfl, rfl⟩
        rcases hps with ⟨hpv, hdb⟩
        constructor
        · rw [hdb, hpv]
          have hfind := find?_map_update db.posts input.id
            (applyPostUpdates input
              (if (input.status == some PostStatus.published &&
                   existing.status != PostStatus.published) = true
               then some now else none) now)
            (fun q => rfl)
          rw [hfind, hf]
          rfl
        · rw [hpv]
          unfold applyPostUpdates
          by_cases hc : input.status = some PostStatus.published ∧
              existing.status ≠ PostStatus.published
          · rw [if_pos hc]
            have hcb : (input.status == some PostStatus.published &&
                existing.status != PostStatus.published) = true := by
              simp [hc.1, bne_iff_ne, hc.2]
            rw [hcb]
            rfl
          · rw [if_neg hc]
            have hcb : (input.status == some PostStatus.published &&
                existing.status != PostStatus.published) = false := by
              by_contra hcontra
              have hb : (input.status == some PostStatus.published &&
                  existing.status != PostStatus.published) = true := by
                revert hcontra
                cases input.status == some PostStatus.published &&
                  existing.status != PostStatus.published <;> simp
              rw [Bool.and_eq_true] at hb
              exact hc ⟨by simpa using hb.1, by simpa [bne_iff_ne] using hb.2⟩
            rw [hcb]
            rfl

/-- Witness for the amended claim C4: creating a published post stamps
publishedAt with the creation time, and publishing the draft post X
stamps it with the update time. -/
theorem publishedAt_transition_amended_witness :
    (∃ p : Post, ∃ db' : DB,
      postCreate dbC4 (some ⟨"a", none⟩)
          ⟨"t2", "y", "c", none, none, PostStatus.published, none⟩ 7 "Y" =
        (Except.ok p, db') ∧ p.publishedAt = some 7) ∧
    (∃ p : Post, ∃ db' : DB,
      postUpdate dbC4 (some ⟨"a", none⟩) inpPubX 10 = (Except.ok p, db') ∧
      p.publishedAt = some 10) :=
  ⟨⟨_, _, rfl,
      ((publishedAt_transition_amended dbC4 ⟨"a", none⟩ 7).1
        ⟨"t2", "y", "c", none, none, PostStatus.published, none⟩ "Y" _ _ rfl).trans
        (if_pos rfl)⟩,
   ⟨_, _, rfl,
      (((publishedAt_transition_amended dbC4 ⟨"a", none⟩ 10).2
        inpPubX postDraftX (by decide) (by decide) _ _ rfl).2).trans
        (if_pos ⟨rfl, by decide⟩)⟩⟩

/-! ## Claim C5 -/

/-- Sample category Tech. -/
def catTech : Category := ⟨"ct", "Tech", "tech", none, 0, 0⟩

/-- Published sample post p1 (linked to Tech below). -/
def postL1 : Post := ⟨"p1", "a1", "s1", "c1", none, none, PostStatus.published, 0, "a", some 1, 1, 1⟩

/-- Published sample post p2 (not linked to any category). -/
def postL2 : Post := ⟨"p2", "a2", "s2", "c2", none, none, PostStatus.published, 0, "a", some 2, 2, 2⟩

/-- Storage state with two published posts of which only p1 is in Tech. -/
def dbC5 : DB :=
  { profiles := [profA]
    todos := []
    posts := [postL1, postL2]
    comments := []
    categories := [catTech]
    postCategories := [⟨"p1", "ct"⟩] }

/-- post.list request filtering by the category slug tech. -/
def inpC5 : PostListInput := ⟨10, 0, none, some "tech", none⟩

/-- Counterexample to claim C5: with the category filter supplied, exactly
one post satisfies all filters and is returned, but the total field counts
the two posts matching only the status filter, because the count query
reuses the conditions array without the category join. -/
theorem post_list_total_counterexample :
    ∃ out : PostListOutput,
      postList dbC5 inpC5 = (Except.ok out, dbC5) ∧
      out.posts.map (fun r => r.post.id) = ["p1"] ∧
      (dbC5.posts.filter (postRowMatches dbC5 inpC5)).length = 1 ∧
      out.total = 2 :=
  ⟨_, rfl, by decide, by decide, by decide⟩

/-- Claim C5 as amended: the posts array holds at most limit rows, each of
which satisfies all supplied filters including the category filter; but
the total field counts the posts satisfying only the status and search
filters (the category filter is not applied to the count), and hasMore
compares offset + limit against that same category-blind total. -/
theorem post_list_pagination_amended (db : DB) (input : PostListInput) :
    ∃ out : PostListOutput,
      postList db input = (Except.ok out, db) ∧
      out.posts.length ≤ input.limit ∧
      (∀ r ∈ out.posts, postRowMatches db input r.post = true) ∧
      out.total = ((db.posts.filter (postMatchesBase input)).length : Int) ∧
      (out.hasMore = true ↔
        (input.offset : Int) + (input.limit : Int) < out.total) := by
  refine ⟨_, rfl, ?_, ?_, rfl, ?_⟩
  · rw [List.length_map]
    exact (List.length_take_le _ _)
  · intro r hr
    rcases List.mem_map.mp hr with ⟨p, hp, rfl⟩
    have hp1 : p ∈ (List.insertionSort postListBefore
        (db.posts.filter (postRowMatches db input))) :=
      List.mem_of_mem_drop (List.mem_of_mem_take hp)
    have hp2 : p ∈ db.posts.filter (postRowMatches db input) :=
      (List.perm_insertionSort postListBefore _).mem_iff.mp hp1
    exact List.of_mem_filter hp2
  · exact decide_eq_true_iff

/-! ## Claim C1 -/

/-- Sample todo owned by profile a. -/
def todoT1 : Todo := ⟨"t1", "Buy milk", none, false, "a", 0, 0⟩

/-- Sample category with no post links. -/
def catC1 : Category := ⟨"cc", "Misc", "misc", none, 0, 0⟩

/-- Storage state for the ownership claims: a todo, post, comment and
category, all data belonging to profile a. -/
def dbC1 : DB :=
  { profiles := [profA]
    todos := [todoT1]
    posts := [postP]
    comments := [comC1]
    categories := [catC1]
    postCategories := [] }

/-- Counterexample to claim C1: the authenticated non-owner b updating or
deleting the todo of a receives NOT_FOUND, not FORBIDDEN, because the
ownership probe folds the owner into the where-clause; and b updating or
deleting a category succeeds outright because the category router has no
ownership check at all. -/
theorem ownership_claim_counterexample :
    (∃ t ∈ dbC1.todos, t.id = "t1" ∧ t.userId ≠ "b") ∧
    resCode (todoUpdate dbC1 (some ⟨"b", none⟩) ⟨"t1", some "x", none, none⟩ 5) =
      some ErrCode.NOT_FOUND ∧
    resCode (todoUpdate dbC1 (some ⟨"b", none⟩) ⟨"t1", some "x", none, none⟩ 5) ≠
      some ErrCode.FORBIDDEN ∧
    resCode (todoDelete dbC1 (some ⟨"b", none⟩) "t1") = some ErrCode.NOT_FOUND ∧
    resCode (categoryUpdate dbC1 (some ⟨"b", none⟩) ⟨"cc", some "n2", none, none⟩ 5) =
      none ∧
    resCode (categoryDelete dbC1 (some ⟨"b", none⟩) "cc") = none := by
  decide

/-- Claim C1 as amended: a non-owning authenticated caller receives
FORBIDDEN on post and comment update and delete; on todos the same
situation yields NOT_FOUND because ownership is folded into the row
lookup; category update and delete perform no ownership check and go
through for any authenticated caller; and every one of these protected
procedures yields UNAUTHORIZED before any storage access when no caller
identity is resolved. -/
theorem ownership_enforcement_amended (db : DB) (u : AuthUser)
    (pin : PostUpdateInput) (cin : CategoryUpdateInput) (tin : TodoUpdateInput)
    (postId comId todoId catId content : String) (now : Int) :
    (∀ ex : Post, db.posts.find? (fun p => p.id == pin.id) = some ex →
      ex.authorId ≠ u.id →
      postUpdate db (some u) pin now =
        (Except.error ⟨ErrCode.FORBIDDEN, "You can only update your own posts"⟩, db)) ∧
    (∀ ex : Post, db.posts.find? (fun p => p.id == postId) = some ex →
      ex.authorId ≠ u.id →
      postDelete db (some u) postId =
        (Except.error ⟨ErrCode.FORBIDDEN, "You can only delete your own posts"⟩, db)) ∧
    (∀ ex : Comment, db.comments.find? (fun c => c.id == comId) = some ex →
      ex.authorId ≠ u.id →
      commentUpdate db (some u) comId content now =
        (Except.error ⟨ErrCode.FORBIDDEN, "You can only update your own comments"⟩, db)) ∧
    (∀ ex : Comment, db.comments.find? (fun c => c.id == comId) = some ex →
      ex.authorId ≠ u.id →
      commentDelete db (some u) comId =
        (Except.error ⟨ErrCode.FORBIDDEN, "You can only delete your own comments"⟩, db)) ∧
    ((∃ t ∈ db.todos, t.id = tin.id) →
      (∀ t ∈ db.todos, t.id = tin.id → t.userId ≠ u.id) →
      todoUpdate db (some u) tin now =
        (Except.error ⟨ErrCode.NOT_FOUND, "Todo not found"⟩, db)) ∧
    ((∃ t ∈ db.todos, t.id = todoId) →
      (∀ t ∈ db.todos, t.id = todoId → t.userId ≠ u.id) →
      todoDelete db (some u) todoId =
        (Except.error ⟨ErrCode.NOT_FOUND, "Todo not found"⟩, db)) ∧
    (∀ ex : Category, db.categories.find? (fun c => c.id == cin.id) = some ex →
      cin.slug = none →
      (categoryUpdate db (some u) cin now).1.isOk = true) ∧
    (∀ ex : Category, db.categories.find? (fun c => c.id == catId) = some ex →
      (∀ pc ∈ db.postCategories, pc.categoryId ≠ catId) →
      (categoryDelete db (some u) catId).1.isOk = true) ∧
    (todoUpdate db none tin now =
      (Except.error ⟨ErrCode.UNAUTHORIZED, "Not authenticated"⟩, db) ∧
     todoDelete db none todoId =
      (Except.error ⟨ErrCode.UNAUTHORIZED, "Not authenticated"⟩, db) ∧
     postUpdate db none pin now =
      (Except.error ⟨ErrCode.UNAUTHORIZED, "Not authenticated"⟩, db) ∧
     postDelete db none postId =
      (Except.error ⟨ErrCode.UNAUTHORIZED, "Not authenticated"⟩, db) ∧
     commentUpdate db none comId content now =
      (Except.error ⟨ErrCode.UNAUTHORIZED, "Not authenticated"⟩, db) ∧
     commentDelete db none comId =
      (Except.error ⟨ErrCode.UNAUTHORIZED, "Not authenticated"⟩, db) ∧
     categoryUpdate db none cin now =
      (Except.error ⟨ErrCode.UNAUTHORIZED, "Not authenticated"⟩, db) ∧
     categoryDelete db none catId =
      (Except.error ⟨ErrCode.UNAUTHORIZED, "Not authenticated"⟩, db)) := by
  refine ⟨?_, ?_, ?_, ?_, ?_, ?_, ?_, ?_,
    rfl, rfl, rfl, rfl, rfl, rfl, rfl, rfl⟩
  · intro ex hf hne
    simp [postUpdate, requireAuth, hf, hne]
  · intro ex hf hne
    simp [postDelete, requireAuth, hf, hne]
  · intro ex hf hne
    simp [commentUpdate, requireAuth, hf, hne]
  · intro ex hf hne
    simp [commentDelete, requireAuth, hf, hne]
  · intro _hex hall
    have hnone : db.todos.find?
        (fun t => t.id == tin.id && t.userId == u.id) = none := by
      rw [List.find?_eq_none]
      intro t ht hb
      rw [Bool.and_eq_true] at hb
      exact hall t ht (by simpa using hb.1) (by simpa using hb.2)
    simp [todoUpdate, requireAuth, hnone]
  · intro _hex hall
    have hnil : db.todos.filter
        (fun t => t.id == todoId && t.userId == u.id) = [] := by
      rw [List.filter_eq_nil_iff]
      intro t ht hb
      rw [Bool.and_eq_true] at hb
      exact hall t ht (by simpa using hb.1) (by simpa using hb.2)
    simp [todoDelete, requireAuth, hnil]
  · intro ex hf hslug
    simp [categoryUpdate, requireAuth, hf, hslug, Except.isOk, Except.toBool]
  · intro ex hf hnolink
    have hnil : db.postCategories.filter (fun pc => pc.categoryId == catId) = [] := by
      rw [List.filter_eq_nil_iff]
      intro pc hpc hb
      exact hnolink pc hpc (by simpa using hb)
    simp [categoryDelete, requireAuth, hf, hnil, Except.isOk, Except.toBool]

/-- Witness for the amended claim C1 on a concrete storage state, with b
as the authenticated non-owner of every item. -/
theorem ownership_enforcement_amended_witness :
    (postUpdate dbC1 (some ⟨"b", none⟩) ⟨"P", none, none, none, none, none, none, none⟩ 5 =
      (Except.error ⟨ErrCode.FORBIDDEN, "You can only update your own posts"⟩, dbC1)) ∧
    (postDelete dbC1 (some ⟨"b", none⟩) "P" =
      (Except.error ⟨ErrCode.FORBIDDEN, "You can only delete your own posts"⟩, dbC1)) ∧
    (commentUpdate dbC1 (some ⟨"b", none⟩) "c1" "z" 5 =
      (Except.error ⟨ErrCode.FORBIDDEN, "You can only update your own comments"⟩, dbC1)) ∧
    (commentDelete dbC1 (some ⟨"b", none⟩) "c1" =
      (Except.error ⟨ErrCode.FORBIDDEN, "You can only delete your own comments"⟩, dbC1)) ∧
    (todoUpdate dbC1 (some ⟨"b", none⟩) ⟨"t1", some "x", none, none⟩ 5 =
      (Except.error ⟨ErrCode.NOT_FOUND, "Todo not found"⟩, dbC1)) ∧
    (todoDelete dbC1 (some ⟨"b", none⟩) "t1" =
      (Except.error ⟨ErrCode.NOT_FOUND, "Todo not found"⟩, dbC1)) ∧
    ((categoryUpdate dbC1 (some ⟨"b", none⟩) ⟨"cc", some "n2", none, none⟩ 5).1.isOk = true) ∧
    ((categoryDelete dbC1 (some ⟨"b", none⟩) "cc").1.isOk = true) ∧
    todoUpdate dbC1 none ⟨"t1", some "x", none, none⟩ 5 =
      (Except.error ⟨ErrCode.UNAUTHORIZED, "Not authenticated"⟩, dbC1) := by
  have h := ownership_enforcement_amended dbC1 ⟨"b", none⟩
    ⟨"P", none, none, none, none, none, none, none⟩
    ⟨"cc", some "n2", none, none⟩ ⟨"t1", some "x", none, none⟩
    "P" "c1" "t1" "cc" "z" 5
  exact ⟨h.1 postP (by decide) (by decide),
    h.2.1 postP (by decide) (by decide),
    h.2.2.1 comC1 (by decide) (by decide),
    h.2.2.2.1 comC1 (by decide) (by decide),
    h.2.2.2.2.1 ⟨todoT1, by decide, by decide⟩ (by decide),
    h.2.2.2.2.2.1 ⟨todoT1, by decide, by decide⟩ (by decide),
    h.2.2.2.2.2.2.1 catC1 (by decide) rfl,
    h.2.2.2.2.2.2.2.1 catC1 (by decide) (by decide),
    h.2.2.2.2.2.2.2.2.1⟩

/-! ## Claims C9 and C10: tree assembly lemmas -/

/-- Reference root list: the ids of the comments without parent, in list
order. -/
def rootIdsSpec (l : List Comment) : List String :=
  (l.filter (fun c => c.parentId.isNone)).map (fun c => c.id)

/-- Reference reply list of node i: the ids of the direct children of i,
in list order. -/
def repliesSpec (l : List Comment) (i : String) : List String :=
  (l.filter (fun c => c.parentId == some i)).map (fun c => c.id)

/-- Unfolding lemma: a parentless head comment joins the reference root
list in front. -/
theorem rootIdsSpec_cons_none (c : Comment) (cl : List Comment)
    (h : c.parentId = none) : rootIdsSpec (c :: cl) = c.id :: rootIdsSpec cl := by
  unfold rootIdsSpec
  rw [List.filter_cons_of_pos (by simp [h]), List.map_cons]

/-- Unfolding lemma: a head comment with a parent does not join the
reference root list. -/
theorem rootIdsSpec_cons_some (c : Comment) (cl : List Comment) (pid : String)
    (h : c.parentId = some pid) : rootIdsSpec (c :: cl) = rootIdsSpec cl := by
  unfold rootIdsSpec
  rw [List.filter_cons_of_neg (by simp [h])]

/-- Unfolding lemma: a head comment whose parent is k joins the reference
reply list of k in front. -/
theorem repliesSpec_cons_pos (c : Comment) (cl : List Comment) (k : String)
    (h : c.parentId = some k) :
    repliesSpec (c :: cl) k = c.id :: repliesSpec cl k := by
  unfold repliesSpec
  rw [List.filter_cons_of_pos (by simp [h]), List.map_cons]

/-- Unfolding lemma: a head comment whose parent is not k does not join
the reference reply list of k. -/
theorem repliesSpec_cons_neg (c : Comment) (cl : List Comment) (k : String)
    (h : ¬ c.parentId = some k) :
    repliesSpec (c :: cl) k = repliesSpec cl k := by
  unfold repliesSpec
  rw [List.filter_cons_of_neg (by simp [h])]

/-- The root accumulator of pass two collects exactly the parentless
comment ids, appended in traversal order. -/
theorem foldl_attachOne_snd (l : List Comment)
    (st : List (String × List String) × List String) :
    (l.foldl attachOne st).2 = st.2 ++ rootIdsSpec l := by
  induction l generalizing st with
  | nil => simp [rootIdsSpec]
  | cons c cl ih =>
    rw [List.foldl_cons, ih]
    cases hp : c.parentId with
    | none =>
      rw [rootIdsSpec_cons_none c cl hp]
      have h2 : (attachOne st c).2 = st.2 ++ [c.id] := by
        simp only [attachOne, hp]
      rw [h2, List.append_assoc]
      rfl
    | some pid =>
      rw [rootIdsSpec_cons_some c cl pid hp]
      have h2 : (attachOne st c).2 = st.2 := by
        simp only [attachOne, hp]
        by_cases hs : (st.1.lookup pid).isSome = true
        · rw [if_pos hs]
        · rw [if_neg hs]
      rw [h2]

/-- Looking a key up after the conditional entry update of pass two. -/
theorem lookup_map_entry (m : List (String × List String)) (pid k : String)
    (f : List String → List String) :
    (m.map fun e => if e.1 == pid then (e.1, f e.2) else e).lookup k =
      (if k == pid then (m.lookup k).map f else m.lookup k) := by
  induction m with
  | nil => cases h : (k == pid) <;> simp [h]
  | cons e m ih =>
    rcases e with ⟨a, b⟩
    by_cases he : a = pid
    · subst he
      by_cases hk : k = a
      · subst hk
        simp [List.lookup_cons]
      · have hkb : (k == a) = false := beq_eq_false_iff_ne.mpr hk
        have hcond : ¬((k == a) = true) := by simp [hkb]
        rw [List.map_cons, if_pos (by simp : ((a == a) = true)), if_neg hcond,
          List.lookup_cons, List.lookup_cons]
        simp only [hkb]
        rw [ih, if_neg hcond]
    · have heb : (a == pid) = false := beq_eq_false_iff_ne.mpr he
      by_cases hk : k = a
      · subst hk
        have hpb : (k == pid) = false := beq_eq_false_iff_ne.mpr he
        have hcond : ¬((k == pid) = true) := by simp [hpb]
        rw [List.map_cons, if_neg (by simp [heb]), if_neg hcond,
          List.lookup_cons, List.lookup_cons]
        simp
      · have hkb : (k == a) = false := beq_eq_false_iff_ne.mpr hk
        rw [List.map_cons, if_neg (by simp [heb]),
          List.lookup_cons, List.lookup_cons]
        simp only [hkb]
        exact ih

/-- The reply accumulator of pass two: a node that is present in the map
collects exactly the ids of its direct children, appended in traversal
order. -/
theorem foldl_attachOne_lookup (l : List Comment)
    (st : List (String × List String) × List String) (k : String)
    (rs : List String) (h : st.1.lookup k = some rs) :
    ((l.foldl attachOne st).1).lookup k = some (rs ++ repliesSpec l k) := by
  induction l generalizing st rs with
  | nil => simp [repliesSpec, h]
  | cons c cl ih =>
    rw [List.foldl_cons]
    cases hp : c.parentId with
    | none =>
      rw [repliesSpec_cons_neg c cl k (by simp [hp])]
      have hst : (attachOne st c).1 = st.1 := by
        simp only [attachOne, hp]
      exact ih (attachOne st c) rs (by rw [hst]; exact h)
    | some pid =>
      by_cases hs : (st.1.lookup pid).isSome = true
      · have hst : (attachOne st c).1 =
            st.1.map fun e => if e.1 == pid then (e.1, e.2 ++ [c.id]) else e := by
          simp only [attachOne, hp]
          rw [if_pos hs]
        by_cases hkp : k = pid
        · subst hkp
          rw [repliesSpec_cons_pos c cl k (by rw [hp])]
          have hlk : (attachOne st c).1.lookup k = some (rs ++ [c.id]) := by
            rw [hst, lookup_map_entry st.1 k k (fun y => y ++ [c.id]),
              if_pos (by simp), h]
            rfl
          have hfin := ih (attachOne st c) (rs ++ [c.id]) hlk
          rw [hfin, List.append_assoc]
          rfl
        · have hne : ¬ c.parentId = some k := by
            rw [hp]
            intro hcontra
            exact hkp (Option.some.inj hcontra).symm
          rw [repliesSpec_cons_neg c cl k hne]
          have hlk : (attachOne st c).1.lookup k = some rs := by
            rw [hst, lookup_map_entry st.1 pid k (fun y => y ++ [c.id]),
              if_neg (by simp [hkp]), h]
          exact ih (attachOne st c) rs hlk
      · have hst : (attachOne st c).1 = st.1 := by
          simp only [attachOne, hp]
          rw [if_neg hs]
        have hne : ¬ c.parentId = some k := by
          rw [hp]
          intro hcontra
          rw [Option.some.inj hcontra, h] at hs
          simp at hs
        rw [repliesSpec_cons_neg c cl k hne]
        exact ih (attachOne st c) rs (by rw [hst]; exact h)

/-- Every id present in the fetched rows owns an (initially empty) node
after pass one. -/
theorem lookup_emptyReplies (l : List Comment) (k : String)
    (h : k ∈ l.map (fun c => c.id)) :
    (emptyReplies l).lookup k = some [] := by
  induction l with
  | nil => cases h
  | cons a al ih =>
    unfold emptyReplies
    rw [List.map_cons]
    cases hk : (k == a.id) with
    | true => simp [List.lookup_cons, hk]
    | false =>
      have hne : k ≠ a.id := beq_eq_false_iff_ne.mp hk
      have hmem : k ∈ al.map (fun c => c.id) := by
        rcases List.mem_map.mp h with ⟨c, hc, rfl⟩
        rcases List.mem_cons.mp hc with rfl | hc'
        · exact absurd rfl hne
        · exact List.mem_map.mpr ⟨c, hc', rfl⟩
      rw [List.lookup_cons]
      simp only [hk]
      exact ih hmem

/-- The assembled tree in terms of the reference filters. -/
theorem buildTree_characterization (l : List Comment) :
    (buildTree l).2 = rootIdsSpec l ∧
    ∀ c ∈ l, (buildTree l).1.lookup c.id = some (repliesSpec l c.id) := by
  constructor
  · unfold buildTree
    rw [foldl_attachOne_snd]
    rfl
  · intro c hc
    unfold buildTree
    have h0 : (emptyReplies l).lookup c.id = some [] :=
      lookup_emptyReplies l c.id (List.mem_map.mpr ⟨c, hc, rfl⟩)
    have := foldl_attachOne_lookup l (emptyReplies l, []) c.id [] h0
    rw [this]
    rfl

/-- Claim C9: on an existing post, getByPostId returns the two-pass tree
assembly over the comments of the post sorted by descending creation
time: the fetched rows are exactly the comments of the post in descending
creation-time order, the root list holds exactly the parentless comments
in that order, and the reply list of every node holds exactly its direct
children appended in that same global descending order, so subtrees are
not re-sorted. -/
theorem comment_tree_assembly (db : DB) (postId : String) (post : Post)
    (hpost : db.posts.find? (fun p => p.id == postId) = some post) :
    ∃ tree : List (String × List String) × List String,
      commentGetByPostId db postId = (Except.ok tree, db) ∧
      (commentTreeRows db postId).Perm
        (db.comments.filter (fun c => c.postId == postId)) ∧
      (commentTreeRows db postId).Pairwise commentNewerFirst ∧
      tree.2 = rootIdsSpec (commentTreeRows db postId) ∧
      ((commentTreeRows db postId).filter
        (fun c => c.parentId.isNone)).Pairwise commentNewerFirst ∧
      (∀ c ∈ commentTreeRows db postId,
        tree.1.lookup c.id =
          some (repliesSpec (commentTreeRows db postId) c.id)) ∧
      (∀ i : String,
        ((commentTreeRows db postId).filter
          (fun c => c.parentId == some i)).Pairwise commentNewerFirst) := by
  have hsorted : (commentTreeRows db postId).Pairwise commentNewerFirst := by
    unfold commentTreeRows
    exact List.sorted_insertionSort _ _
  refine ⟨buildTree (commentTreeRows db postId), ?_, ?_, hsorted, ?_, ?_, ?_, ?_⟩
  · unfold commentGetByPostId
    rw [hpost]
  · unfold commentTreeRows
    exact List.perm_insertionSort _ _
  · exact (buildTree_characterization _).1
  · exact List.Pairwise.filter _ hsorted
  · exact (buildTree_characterization _).2
  · intro i
    exact List.Pairwise.filter _ hsorted

/-- Comments for the tree witnesses: two roots, two replies of r1, and a
comment whose parent lives on a different post. -/
def comR1 : Comment := ⟨"r1", "x", "P", "a", none, 1, 1⟩

/-- First reply of r1. -/
def comRa : Comment := ⟨"ra", "x", "P", "a", some "r1", 2, 2⟩

/-- Second reply of r1. -/
def comRb : Comment := ⟨"rb", "x", "P", "a", some "r1", 3, 3⟩

/-- Second root comment. -/
def comR2 : Comment := ⟨"r2", "x", "P", "a", none, 4, 4⟩

/-- Comment whose parentId zz matches no comment of the post. -/
def comRo : Comment := ⟨"ro", "x", "P", "a", some "zz", 5, 5⟩

/-- Storage state for the tree witnesses. -/
def dbC9 : DB :=
  { profiles := [profA]
    todos := []
    posts := [postP]
    comments := [comR1, comRa, comRb, comR2, comRo]
    categories := []
    postCategories := [] }

/-- Witness for claim C9 on a concrete storage state. -/
theorem comment_tree_assembly_witness :
    ∃ tree : List (String × List String) × List String,
      commentGetByPostId dbC9 "P" = (Except.ok tree, dbC9) ∧
      (commentTreeRows dbC9 "P").Perm
        (dbC9.comments.filter (fun c => c.postId == "P")) ∧
      (commentTreeRows dbC9 "P").Pairwise commentNewerFirst ∧
      tree.2 = rootIdsSpec (commentTreeRows dbC9 "P") ∧
      ((commentTreeRows dbC9 "P").filter
        (fun c => c.parentId.isNone)).Pairwise commentNewerFirst ∧
      (∀ c ∈ commentTreeRows dbC9 "P",
        tree.1.lookup c.id = some (repliesSpec (commentTreeRows dbC9 "P") c.id)) ∧
      (∀ i : String,
        ((commentTreeRows dbC9 "P").filter
          (fun c => c.parentId == some i)).Pairwise commentNewerFirst) :=
  comment_tree_assembly dbC9 "P" postP (by decide)

/-- Claim C10: a comment whose parentId matches no fetched comment of the
post is silently dropped by the tree assembly: its id is neither in the
root list nor in any reply list of the returned tree. -/
theorem comment_orphan_dropped (db : DB) (postId : String) (post : Post)
    (c : Comment) (p : String)
    (hpost : db.posts.find? (fun q => q.id == postId) = some post)
    (hnd : ((commentTreeRows db postId).map (fun x => x.id)).Nodup)
    (hc : c ∈ commentTreeRows db postId)
    (hp : c.parentId = some p)
    (hnp : p ∉ (commentTreeRows db postId).map (fun x => x.id)) :
    ∃ tree : List (String × List String) × List String,
      commentGetByPostId db postId = (Except.ok tree, db) ∧
      c.id ∉ tree.2 ∧
      ∀ d ∈ commentTreeRows db postId, ∀ rs : List String,
        tree.1.lookup d.id = some rs → c.id ∉ rs := by
  refine ⟨buildTree (commentTreeRows db postId), ?_, ?_, ?_⟩
  · unfold commentGetByPostId
    rw [hpost]
  · rw [(buildTree_characterization _).1]
    intro hmem
    rcases List.mem_map.mp hmem with ⟨c', hc', hid⟩
    have hc'mem : c' ∈ commentTreeRows db postId := List.mem_of_mem_filter hc'
    have hceq : c' = c := List.inj_on_of_nodup_map hnd hc'mem hc hid
    have hnone := List.of_mem_filter hc'
    rw [hceq, hp] at hnone
    simp at hnone
  · intro d hd rs hlk hmem
    rw [(buildTree_characterization _).2 d hd] at hlk
    have hrs := Option.some.inj hlk
    rw [← hrs] at hmem
    rcases List.mem_map.mp hmem with ⟨c', hc', hid⟩
    have hc'mem : c' ∈ commentTreeRows db postId := List.mem_of_mem_filter hc'
    have hpar := List.of_mem_filter hc'
    have hceq : c' = c := List.inj_on_of_nodup_map hnd hc'mem hc hid
    rw [hceq, hp] at hpar
    have hpd : p = d.id := by simpa using hpar
    exact hnp (by rw [hpd]; exact List.mem_map.mpr ⟨d, hd, rfl⟩)

/-- Witness for claim C10: the comment ro with the foreign parent zz is
absent from the assembled tree of post P. -/
theorem comment_orphan_dropped_witness :
    ∃ tree : List (String × List String) × List String,
      commentGetByPostId dbC9 "P" = (Except.ok tree, dbC9) ∧
      comRo.id ∉ tree.2 ∧
      ∀ d ∈ commentTreeRows dbC9 "P", ∀ rs : List String,
        tree.1.lookup d.id = some rs → comRo.id ∉ rs :=
  comment_orphan_dropped dbC9 "P" postP comRo "zz" (by decide) (by decide)
    (by decide) rfl (by decide)

end Starter
